import Mathlib

/-!
# Reconciliation engine of the lending-management app

Shallow embedding of the daily reconciliation routine (the second
`useEffect` block of the top-level `App` component): fine accrual on
overdue loans and rank demotion of users, translated from the source.

Dates are modelled at day granularity (both `today` and due dates are
midnight-truncated in the source); a date value is its day number
(days since 1970-01-01).  Currency amounts are modelled as exact
rationals (the source computes `amount * 0.3` and
`amount * 0.001 * diffDays` on JS numbers; the exact-arithmetic reading
is the one the specification states).
-/

/-- The rank ladder, lowest first: `[standard, bronze, silver, gold, diamond]`. -/
inductive Rank where
  | standard
  | bronze
  | silver
  | gold
  | diamond
deriving DecidableEq, Repr

/-- `rankOrder` — the ladder as an ordered list, as in the source:
`const rankOrder: UserRank[]`. -/
def rankOrder : List Rank :=
  [Rank.standard, Rank.bronze, Rank.silver, Rank.gold, Rank.diamond]

/-- Position of a rank on the ladder (`rankOrder.indexOf(currentRank)`). -/
def rankIdx (r : Rank) : Nat := rankOrder.indexOf r

/-- One step down the ladder: `rankOrder[rankIdx - 1]` (identity when the
index is `0`, mirroring the guarded access in the source). -/
def rankDown (r : Rank) : Rank := rankOrder.getD (rankIdx r - 1) r

/-- The rank→limit table of the demotion branch:
standard=2,000,000; bronze=3,000,000; silver=4,000,000; gold=5,000,000;
diamond=10,000,000.  (In the source a chain of `if/else if` covering all
five ranks.) -/
def rankLimit : Rank → ℚ
  | Rank.standard => 2000000
  | Rank.bronze   => 3000000
  | Rank.silver   => 4000000
  | Rank.gold     => 5000000
  | Rank.diamond  => 10000000

/-- A user record (the fields the reconciliation engine reads or writes,
plus identity fields it must leave untouched). -/
structure User where
  id : String
  phone : String
  fullName : String
  isAdmin : Bool
  rank : Rank
  rankProgress : Nat
  totalLimit : ℚ
  balance : ℚ
  lastLoanSeq : Nat
deriving DecidableEq, Repr

/-- A loan record (the fields the reconciliation engine reads or writes). -/
structure LoanRecord where
  id : String
  userId : String
  amount : ℚ
  date : String
  status : String
  fine : ℚ
deriving DecidableEq, Repr

/-- The active statuses:
the three-way status disjunction of the source. -/
def isActiveStatus (st : String) : Bool :=
  st == "ĐANG NỢ" || st == "CHỜ TẤT TOÁN" || st == "ĐANG GIẢI NGÂN"

/-- Split a character list at every occurrence of `c`, keeping empty
segments, as JS `String.prototype.split` with a one-character separator
does (`""` splits to `[""]`, `"/"` to `["",""]`). -/
def jsSplit (c : Char) : List Char → List (List Char)
  | [] => [[]]
  | ch :: rest =>
      let r := jsSplit c rest
      if ch = c then [] :: r
      else
        match r with
        | [] => [[ch]]
        | seg :: segs => (ch :: seg) :: segs

/-- Value of a nonempty decimal-digit string. -/
def digitsVal (cs : List Char) : Nat :=
  cs.foldl (fun n c => 10 * n + (c.toNat - 48)) 0

/-- JS `Number(s)` on the strings that occur as due-date components:
a (possibly whitespace-padded) digit string yields its value, the empty
or all-whitespace string yields `0`, anything else yields `NaN`
(modelled as `none`). -/
def jsNumber (s : String) : Option ℤ :=
  let t := ((s.data.dropWhile Char.isWhitespace).reverse.dropWhile
    Char.isWhitespace).reverse
  if t = [] then some 0
  else if t.all Char.isDigit then some (Int.ofNat (digitsVal t))
  else none

/-- Due-date split on the slash separator, converted by `Number`, destructured as `[d, m, y]`:
fewer than three components leaves a component `undefined`, whose
`Number` conversion is `NaN`; extra components are ignored. -/
def parseDMY (s : String) : Option (ℤ × ℤ × ℤ) :=
  match (jsSplit '/' s.data).map String.mk with
  | ds :: ms :: ys :: _ => do
      let d ← jsNumber ds
      let m ← jsNumber ms
      let y ← jsNumber ys
      pure (d, m, y)
  | _ => none

/-- Two-digit-year rule of the JS `Date(year, month, day)` constructor:
a year argument between 0 and 99 means 1900+year. -/
def jsYearAdjust (y : ℤ) : ℤ := if 0 ≤ y ∧ y ≤ 99 then y + 1900 else y

/-- Day number (days since 1970-01-01) of a civil date, linear in the day
argument, so that out-of-range day values normalize exactly as the JS
`Date` constructor does.  Standard civil-from-days inverse. -/
def daysFromCivil (y m d : ℤ) : ℤ :=
  let yAdj := y - (if m ≤ 2 then 1 else 0)
  let era := Int.fdiv yAdj 400
  let yoe := yAdj - era * 400
  let mp := Int.emod (m + 9) 12
  let doy := Int.fdiv (153 * mp + 2) 5 + d - 1
  let doe := yoe * 365 + Int.fdiv yoe 4 - Int.fdiv yoe 100 + doy
  era * 146097 + doe - 719468

/-- Day number of `new Date(y, m - 1, d)` after `setHours(0,0,0,0)`:
two-digit-year adjustment, then month overflow folded into the year,
then the civil day number (day overflow is handled by linearity). -/
def jsDate (y m d : ℤ) : ℤ :=
  let ya := jsYearAdjust y
  let mm := m - 1
  daysFromCivil (ya + Int.fdiv mm 12) (Int.emod mm 12 + 1) d

/-- Parse a due-date string as the source does:
split the string on the slash separator, convert each part by
`Number`, build the date from `(y, m - 1, d)` and truncate to midnight.
`none` models an `Invalid Date` (every comparison against it is false). -/
def parseDueDate (s : String) : Option ℤ :=
  (parseDMY s).map (fun dmy => jsDate dmy.2.2 dmy.2.1 dmy.1)

/-- The fine of an overdue loan:
`maxFine = amount * 0.3; calculatedFine = Math.floor(amount * 0.001 * diffDays);
newFine = Math.min(maxFine, calculatedFine)`. -/
def computeFine (amount : ℚ) (diffDays : Nat) : ℚ :=
  let maxFine := amount * (3 / 10)
  let calculatedFine : ℚ := (⌊amount * (1 / 1000) * (diffDays : ℚ)⌋ : ℤ)
  min maxFine calculatedFine

/-- Step A, per loan: on an active loan whose due date parses and lies
strictly before `today`, recompute the fine and replace it only when it
differs from the stored value; otherwise return the loan unchanged. -/
def reconcileLoan (today : ℤ) (loan : LoanRecord) : LoanRecord :=
  if isActiveStatus loan.status then
    match parseDueDate loan.date with
    | some due =>
        if due < today then
          let newFine := computeFine loan.amount (today - due).toNat
          if loan.fine ≠ newFine then { loan with fine := newFine } else loan
        else loan
    | none => loan
  else loan

/-- Overdue-day count of one loan: `Math.ceil(diffTime / 86400000)` on
midnight-truncated dates, i.e. the day-number difference when positive,
`0` otherwise (an unparseable date never compares greater). -/
def loanOverdue (today : ℤ) (loan : LoanRecord) : Nat :=
  match parseDueDate loan.date with
  | some due => if due < today then (today - due).toNat else 0
  | none => 0

/-- `maxDiffDays`: the maximum overdue-day count over the active loans
of the user (`0` when none is overdue). -/
def maxOverdueDays (today : ℤ) (loans : List LoanRecord) (u : User) : Nat :=
  ((loans.filter fun l => l.userId == u.id && isActiveStatus l.status).map
    (loanOverdue today)).foldl max 0

/-- The demotion `while` loop
(runs while `remainingDays > 0` and the rank is not standard), returning
the final `(currentRank, currentProgress, remainingDays)`.  A JS
`remainingDays` that would go negative exits the loop just as the
the zero of truncated subtraction does, and the post-loop clamp distinguishes
neither. -/
def walk (d : Nat) (r : Rank) (p : Nat) : Rank × Nat × Nat :=
  if h : 0 < d ∧ r ≠ Rank.standard then
    if d ≤ p then (r, p - d, 0)
    else
      if 0 < rankIdx r then walk (d - (p + 1)) (rankDown r) 10
      else (r, p, 0)
  else (r, p, d)
termination_by d
decreasing_by exact Nat.sub_lt h.1 (Nat.succ_pos p)

/-- The post-loop clamp:
when the rank is standard and `remainingDays > 0`, the progress becomes
`Math.max(0, currentProgress - remainingDays)`. -/
def clampFinish (t : Rank × Nat × Nat) : Rank × Nat :=
  if t.1 = Rank.standard ∧ 0 < t.2.2 then (t.1, t.2.1 - t.2.2) else (t.1, t.2.1)

/-- Step B, the per-user demotion computation for `maxDiffDays > 0`:
the diamond special step (force gold, progress 10, consume one day),
then the walk, then the standard-rank clamp. -/
def demoteStep (rank : Rank) (progress : Nat) (maxDiffDays : Nat) : Rank × Nat :=
  let start :=
    if rank = Rank.diamond then (Rank.gold, 10, maxDiffDays - 1)
    else (rank, progress, maxDiffDays)
  clampFinish (walk start.2.2 start.1 start.2.1)

/-- Step B, per user: admins are skipped; a non-admin with a positive
`maxDiffDays` whose computed `(rank, progress)` differs from the stored
pair is rewritten with the new rank, progress, the table limit, and
`balance = Math.min(newLimit, balance)`; otherwise unchanged. -/
def reconcileUser (today : ℤ) (newLoans : List LoanRecord) (u : User) : User :=
  if u.isAdmin then u
  else
    let maxDiffDays := maxOverdueDays today newLoans u
    if 0 < maxDiffDays then
      let rp := demoteStep u.rank u.rankProgress maxDiffDays
      if rp.1 ≠ u.rank ∨ rp.2 ≠ u.rankProgress then
        { u with
          rank := rp.1
          rankProgress := rp.2
          totalLimit := rankLimit rp.1
          balance := min (rankLimit rp.1) u.balance }
      else u
    else u

/-- The whole engine: map fine accrual over the loans, then map the
demotion pass (reading the updated loans) over the users. -/
def reconcile (today : ℤ) (loans : List LoanRecord) (users : List User) :
    List LoanRecord × List User :=
  let newLoans := loans.map (reconcileLoan today)
  (newLoans, users.map (reconcileUser today newLoans))

/-! ## Helper lemmas -/

theorem rankIdx_pos {r : Rank} (h : r ≠ Rank.standard) : 0 < rankIdx r := by
  cases r
  all_goals first
    | exact absurd rfl h
    | decide

theorem rankDown_le (r : Rank) : rankIdx (rankDown r) ≤ rankIdx r := by
  cases r <;> decide

theorem clampFinish_fst (t : Rank × Nat × Nat) : (clampFinish t).1 = t.1 := by
  unfold clampFinish; split <;> rfl

theorem walk_rank_le (d : Nat) (r : Rank) (p : Nat) :
    rankIdx (walk d r p).1 ≤ rankIdx r := by
  induction d using Nat.strong_induction_on generalizing r p with
  | _ d ih =>
    rw [walk]
    split
    · split
      · exact le_rfl
      · split
        · exact le_trans (ih _ (Nat.sub_lt (by omega) (Nat.succ_pos p)) _ _)
            (rankDown_le r)
        · exact le_rfl
    · exact le_rfl

theorem demoteStep_rank_le (r : Rank) (p d : Nat) :
    rankIdx (demoteStep r p d).1 ≤ rankIdx r := by
  unfold demoteStep
  rw [clampFinish_fst]
  split
  next h =>
    subst h
    have h2 : rankIdx Rank.gold ≤ rankIdx Rank.diamond := by decide
    exact le_trans (walk_rank_le _ _ _) h2
  next h =>
    exact walk_rank_le _ _ _

theorem computeFine_eq (amount : ℚ) (n : Nat) :
    computeFine amount n
      = min (amount * (3 / 10)) ((⌊amount * (1 / 1000) * (n : ℚ)⌋ : ℤ) : ℚ) := rfl

/-- Claim C1: on an active loan whose parsed due date is strictly before today,
the engine sets the fine to
`min(amount * 0.30, floor(amount * 0.001 * overdueDays))` with
`overdueDays = today - dueDate`; for every `amount > 0` and
`overdueDays ≥ 0` the fine is at most `amount * 0.30`, and
`amount = 1000000` with `overdueDays = 1000` yields `300000`. -/
theorem fine_formula_and_cap :
    (∀ (today : ℤ) (loan : LoanRecord) (due : ℤ),
        isActiveStatus loan.status = true →
        parseDueDate loan.date = some due →
        due < today →
        (reconcileLoan today loan).fine
          = min (loan.amount * (3 / 10))
              ((⌊loan.amount * (1 / 1000) * (((today - due).toNat : ℚ))⌋ : ℤ) : ℚ))
    ∧ (∀ (amount : ℚ) (overdueDays : Nat), 0 < amount →
        computeFine amount overdueDays ≤ amount * (3 / 10))
    ∧ computeFine 1000000 1000 = 300000 := by
  refine ⟨?_, ?_, ?_⟩
  · intro today loan due hact hpar hlt
    rw [← computeFine_eq]
    unfold reconcileLoan
    rw [if_pos hact, hpar]
    dsimp only
    rw [if_pos hlt]
    split
    · rfl
    next h =>
      simp only [ne_eq, not_not] at h
      simpa using h
  · intro amount overdueDays _
    exact min_le_left _ _
  · norm_num [computeFine, min_def]

def loanC1 : LoanRecord :=
  { id := "LN-C1", userId := "U-C1", amount := 2000000,
    date := "5/3/2025", status := "ĐANG NỢ", fine := 0 }

/-- Witness for C1 at the concrete loan `loanC1`, five days overdue. -/
theorem fine_formula_and_cap_witness :
    (reconcileLoan 20157 loanC1).fine
      = min (loanC1.amount * (3 / 10))
          ((⌊loanC1.amount * (1 / 1000) * (((20157 - (20152 : ℤ)).toNat : ℚ))⌋ : ℤ) : ℚ) :=
  fine_formula_and_cap.1 20157 loanC1 20152 (by decide) (by decide) (by decide)

/-- Claim C2: while days remain and the rank is not standard, the walk either
absorbs all remaining days into the progress (when
`currentProgress ≥ remainingDays`) and stops, or pays
`currentProgress + 1` days, drops one rank level and resets the progress
to `10`; a gold user with progress `2` and `maxOverdueDays = 5` ends at
silver with progress `8`. -/
theorem demotion_walk_step :
    (∀ (d : Nat) (r : Rank) (p : Nat), 0 < d → r ≠ Rank.standard →
        walk d r p =
          if d ≤ p then (r, p - d, 0)
          else walk (d - (p + 1)) (rankDown r) 10)
    ∧ demoteStep Rank.gold 2 5 = (Rank.silver, 8) := by
  constructor
  · intro d r p hd hr
    rw [walk]
    rw [dif_pos ⟨hd, hr⟩]
    split
    · rfl
    · rw [if_pos (rankIdx_pos hr)]
  · simp [demoteStep, walk, clampFinish, rankDown, rankIdx, rankOrder]

/-- Witness for C2: one unfolding of the walk at `(5, gold, 2)` plus the
multi-level demotion example. -/
theorem demotion_walk_step_witness :
    (walk 5 Rank.gold 2 =
      if 5 ≤ 2 then (Rank.gold, 2 - 5, 0)
      else walk (5 - (2 + 1)) (rankDown Rank.gold) 10)
    ∧ demoteStep Rank.gold 2 5 = (Rank.silver, 8) :=
  ⟨demotion_walk_step.1 5 Rank.gold 2 (by decide) (by decide),
   demotion_walk_step.2⟩

/-- Claim C7: an active loan whose parsed due date is on or after today is
returned exactly unchanged — the stored fine is neither reset nor
recomputed. -/
theorem no_fine_before_due :
    ∀ (today : ℤ) (loan : LoanRecord) (due : ℤ),
      parseDueDate loan.date = some due → today ≤ due →
      reconcileLoan today loan = loan := by
  intro today loan due hpar hle
  unfold reconcileLoan
  split
  · rw [hpar]
    dsimp only
    rw [if_neg (not_lt.2 hle)]
  · rfl

def loanC7 : LoanRecord :=
  { id := "LN-C7", userId := "U-C7", amount := 2000000,
    date := "5/3/2025", status := "ĐANG NỢ", fine := 7777 }

/-- Witness for C7: the day before the due date, the stored fine `7777`
survives untouched. -/
theorem no_fine_before_due_witness :
    reconcileLoan 20151 loanC7 = loanC7 :=
  no_fine_before_due 20151 loanC7 20152 (by decide) (by decide)

/-- Claim C4: a diamond user entering the demotion computation is first forced
one step down to gold with progress `10`, consuming one day, before the
iterative walk; with `maxOverdueDays = 1` the result is gold, progress
`10`, and the walk takes no further step. -/
theorem diamond_demotion_floor :
    (∀ (p d : Nat), 1 ≤ d →
        demoteStep Rank.diamond p d = clampFinish (walk (d - 1) Rank.gold 10))
    ∧ (∀ p, demoteStep Rank.diamond p 1 = (Rank.gold, 10))
    ∧ walk 0 Rank.gold 10 = (Rank.gold, 10, 0) := by
  refine ⟨?_, ?_, ?_⟩
  · intro p d _
    rfl
  · intro p
    simp [demoteStep, walk, clampFinish]
  · simp [walk]

/-- Witness for C4 at `p = 7`, `d = 3` and `p = 7`, `d = 1`. -/
theorem diamond_demotion_floor_witness :
    demoteStep Rank.diamond 7 3 = clampFinish (walk (3 - 1) Rank.gold 10)
    ∧ demoteStep Rank.diamond 7 1 = (Rank.gold, 10) :=
  ⟨diamond_demotion_floor.1 7 3 (by decide), diamond_demotion_floor.2.1 7⟩

/-- Claim C6: when the walk ends (or starts) at standard with days remaining,
the rank stays standard and the progress is
`max(0, progress - remainingDays)` — floored at zero, never negative;
a standard user with progress `3` and `maxOverdueDays = 10` ends at
progress `0`. -/
theorem standard_floor :
    (∀ (p rem : Nat), 0 < rem →
        clampFinish (Rank.standard, p, rem) = (Rank.standard, p - rem))
    ∧ (∀ (p d : Nat), 0 < d →
        demoteStep Rank.standard p d = (Rank.standard, p - d)
        ∧ ((p - d : Nat) : ℤ) = max 0 ((p : ℤ) - (d : ℤ)))
    ∧ demoteStep Rank.standard 3 10 = (Rank.standard, 0) := by
  refine ⟨?_, ?_, ?_⟩
  · intro p rem hrem
    simp [clampFinish, hrem]
  · intro p d hd
    constructor
    · simp [demoteStep, walk, clampFinish, hd, Nat.pos_iff_ne_zero.mp hd]
    · omega
  · simp [demoteStep, walk, clampFinish]

/-- Witness for C6 at `p = 3`, `d = 10`. -/
theorem standard_floor_witness :
    (demoteStep Rank.standard 3 10 = (Rank.standard, 3 - 10)
      ∧ ((3 - 10 : Nat) : ℤ) = max 0 ((3 : ℤ) - (10 : ℤ)))
    ∧ clampFinish (Rank.standard, 4, 2) = (Rank.standard, 4 - 2) :=
  ⟨standard_floor.2.1 3 10 (by decide), standard_floor.1 4 2 (by decide)⟩

/-- Claim C9: the engine never raises a rank — for every user the output rank
is at or below the input rank on the ladder, both for the per-user pass
and pointwise over the full user list of the engine output. -/
theorem reconcile_never_promotes :
    (∀ (today : ℤ) (loans : List LoanRecord) (u : User),
        rankIdx (reconcileUser today loans u).rank ≤ rankIdx u.rank)
    ∧ (∀ (today : ℤ) (loans : List LoanRecord) (users : List User),
        List.Forall₂ (fun outU inU => rankIdx outU.rank ≤ rankIdx inU.rank)
          (reconcile today loans users).2 users) := by
  have huser : ∀ (today : ℤ) (loans : List LoanRecord) (u : User),
      rankIdx (reconcileUser today loans u).rank ≤ rankIdx u.rank := by
    intro today loans u
    unfold reconcileUser
    dsimp only
    split
    · exact le_rfl
    · split
      · split
        · exact demoteStep_rank_le u.rank u.rankProgress _
        · exact le_rfl
      · exact le_rfl
  refine ⟨huser, ?_⟩
  intro today loans users
  unfold reconcile
  dsimp only
  induction users with
  | nil => exact List.Forall₂.nil
  | cons u us ih => exact List.Forall₂.cons (huser _ _ u) ih

def loanC5 : LoanRecord :=
  { id := "LN-C5", userId := "U-C5", amount := 1000000,
    date := "5/3/2025", status := "ĐANG NỢ", fine := 0 }

def userC5 : User :=
  { id := "U-C5", phone := "0900000005", fullName := "Khach C5",
    isAdmin := false, rank := Rank.gold, rankProgress := 2,
    totalLimit := 5000000, balance := 4800000, lastLoanSeq := 3 }

/-- Claim C5: when the computed `(rank, progress)` differs from the stored
pair, the engine writes the table limit of the new rank — standard
2,000,000; bronze 3,000,000; silver 4,000,000; gold 5,000,000; diamond
10,000,000 — and clamps `balance = min(newLimit, balance)`; the gold
user `userC5` with balance 4,800,000 demoted to silver ends with
balance 4,000,000. -/
theorem limit_table_and_balance_clamp :
    (rankLimit Rank.standard = 2000000 ∧ rankLimit Rank.bronze = 3000000
      ∧ rankLimit Rank.silver = 4000000 ∧ rankLimit Rank.gold = 5000000
      ∧ rankLimit Rank.diamond = 10000000)
    ∧ (∀ (today : ℤ) (loans : List LoanRecord) (u : User),
        u.isAdmin = false →
        0 < maxOverdueDays today loans u →
        demoteStep u.rank u.rankProgress (maxOverdueDays today loans u)
            ≠ (u.rank, u.rankProgress) →
        (reconcileUser today loans u).totalLimit
            = rankLimit
                (demoteStep u.rank u.rankProgress (maxOverdueDays today loans u)).1
          ∧ (reconcileUser today loans u).balance
            = min
                (rankLimit
                  (demoteStep u.rank u.rankProgress (maxOverdueDays today loans u)).1)
                u.balance)
    ∧ (reconcileUser 20157 [loanC5] userC5).rank = Rank.silver
    ∧ (reconcileUser 20157 [loanC5] userC5).totalLimit = 4000000
    ∧ (reconcileUser 20157 [loanC5] userC5).balance = 4000000 := by
  have hmid : ∀ (today : ℤ) (loans : List LoanRecord) (u : User),
      u.isAdmin = false →
      0 < maxOverdueDays today loans u →
      demoteStep u.rank u.rankProgress (maxOverdueDays today loans u)
          ≠ (u.rank, u.rankProgress) →
      (reconcileUser today loans u).totalLimit
          = rankLimit
              (demoteStep u.rank u.rankProgress (maxOverdueDays today loans u)).1
        ∧ (reconcileUser today loans u).balance
          = min
              (rankLimit
                (demoteStep u.rank u.rankProgress (maxOverdueDays today loans u)).1)
              u.balance := by
    intro today loans u hadm hpos hne
    have hcond :
        (demoteStep u.rank u.rankProgress (maxOverdueDays today loans u)).1 ≠ u.rank
        ∨ (demoteStep u.rank u.rankProgress (maxOverdueDays today loans u)).2
            ≠ u.rankProgress := by
      by_contra hc
      push_neg at hc
      exact hne (Prod.ext hc.1 hc.2)
    unfold reconcileUser
    rw [if_neg (by simp [hadm])]
    dsimp only
    rw [if_pos hpos, if_pos hcond]
    exact ⟨rfl, rfl⟩
  have hmax : maxOverdueDays 20157 [loanC5] userC5 = 5 := by decide
  have hdem : demoteStep Rank.gold 2 5 = (Rank.silver, 8) := by
    simp [demoteStep, walk, clampFinish, rankDown, rankIdx, rankOrder]
  have hconc := hmid 20157 [loanC5] userC5 rfl (by rw [hmax]; decide)
    (by rw [hmax]; show demoteStep Rank.gold 2 5 ≠ (Rank.gold, 2); rw [hdem]; decide)
  refine ⟨by refine ⟨rfl, rfl, rfl, rfl, rfl⟩, hmid, ?_, ?_, ?_⟩
  · unfold reconcileUser
    rw [if_neg (by decide)]
    dsimp only
    rw [hmax]
    rw [if_pos (by decide)]
    rw [show demoteStep userC5.rank userC5.rankProgress 5 = (Rank.silver, 8) from hdem]
    rw [if_pos (by decide)]
  · rw [hconc.1, hmax]
    rw [show demoteStep userC5.rank userC5.rankProgress 5 = (Rank.silver, 8) from hdem]
    rfl
  · rw [hconc.2, hmax]
    rw [show demoteStep userC5.rank userC5.rankProgress 5 = (Rank.silver, 8) from hdem]
    norm_num [rankLimit, userC5, min_def]

/-- Witness for C5: the general clamp applied at the concrete demoted
gold user `userC5`. -/
theorem limit_table_and_balance_clamp_witness :
    (reconcileUser 20157 [loanC5] userC5).totalLimit
        = rankLimit
            (demoteStep userC5.rank userC5.rankProgress
              (maxOverdueDays 20157 [loanC5] userC5)).1
      ∧ (reconcileUser 20157 [loanC5] userC5).balance
        = min
            (rankLimit
              (demoteStep userC5.rank userC5.rankProgress
                (maxOverdueDays 20157 [loanC5] userC5)).1)
            userC5.balance :=
  limit_table_and_balance_clamp.2.1 20157 [loanC5] userC5 rfl
    (by decide)
    (by
      have hmax : maxOverdueDays 20157 [loanC5] userC5 = 5 := by decide
      rw [hmax]
      show demoteStep Rank.gold 2 5 ≠ (Rank.gold, 2)
      simp [demoteStep, walk, clampFinish, rankDown, rankIdx, rankOrder])

/-- Claim C10: non-active loans are returned as input; on any loan only the
fine can change; admin users are returned as input; on any user only
rank, progress, limit and balance can change; and a non-admin whose
computed `(rank, progress)` equals the stored pair is returned as
input. -/
theorem frame_conditions :
    (∀ (today : ℤ) (l : LoanRecord), isActiveStatus l.status = false →
        reconcileLoan today l = l)
    ∧ (∀ (today : ℤ) (l : LoanRecord),
        (reconcileLoan today l).id = l.id
        ∧ (reconcileLoan today l).userId = l.userId
        ∧ (reconcileLoan today l).amount = l.amount
        ∧ (reconcileLoan today l).date = l.date
        ∧ (reconcileLoan today l).status = l.status)
    ∧ (∀ (today : ℤ) (loans : List LoanRecord) (u : User), u.isAdmin = true →
        reconcileUser today loans u = u)
    ∧ (∀ (today : ℤ) (loans : List LoanRecord) (u : User),
        (reconcileUser today loans u).id = u.id
        ∧ (reconcileUser today loans u).phone = u.phone
        ∧ (reconcileUser today loans u).fullName = u.fullName
        ∧ (reconcileUser today loans u).isAdmin = u.isAdmin
        ∧ (reconcileUser today loans u).lastLoanSeq = u.lastLoanSeq)
    ∧ (∀ (today : ℤ) (loans : List LoanRecord) (u : User),
        demoteStep u.rank u.rankProgress (maxOverdueDays today loans u)
            = (u.rank, u.rankProgress) →
        reconcileUser today loans u = u) := by
  refine ⟨?_, ?_, ?_, ?_, ?_⟩
  · intro today l hna
    unfold reconcileLoan
    rw [if_neg (by simp [hna])]
  · intro today l
    unfold reconcileLoan
    split
    · split
      · split
        · dsimp only
          split <;> exact ⟨rfl, rfl, rfl, rfl, rfl⟩
        · exact ⟨rfl, rfl, rfl, rfl, rfl⟩
      · exact ⟨rfl, rfl, rfl, rfl, rfl⟩
    · exact ⟨rfl, rfl, rfl, rfl, rfl⟩
  · intro today loans u hadm
    unfold reconcileUser
    rw [if_pos hadm]
  · intro today loans u
    unfold reconcileUser
    dsimp only
    split
    · exact ⟨rfl, rfl, rfl, rfl, rfl⟩
    · split
      · split
        · exact ⟨rfl, rfl, rfl, rfl, rfl⟩
        · exact ⟨rfl, rfl, rfl, rfl, rfl⟩
      · exact ⟨rfl, rfl, rfl, rfl, rfl⟩
  · intro today loans u heq
    unfold reconcileUser
    dsimp only
    split
    · rfl
    · split
      · have h1 : (demoteStep u.rank u.rankProgress
            (maxOverdueDays today loans u)).1 = u.rank := by rw [heq]
        have h2 : (demoteStep u.rank u.rankProgress
            (maxOverdueDays today loans u)).2 = u.rankProgress := by rw [heq]
        rw [if_neg (by simp [h1, h2])]
      · rfl

def loanC10 : LoanRecord :=
  { id := "LN-C10", userId := "U-C10", amount := 1500000,
    date := "5/3/2025", status := "ĐÃ TẤT TOÁN", fine := 1500 }

def adminC10 : User :=
  { id := "AD-C10", phone := "0877203996", fullName := "Quan tri vien",
    isAdmin := true, rank := Rank.diamond, rankProgress := 10,
    totalLimit := 500000000, balance := 500000000, lastLoanSeq := 0 }

def userC10 : User :=
  { id := "U-C10", phone := "0900000010", fullName := "Khach C10",
    isAdmin := false, rank := Rank.bronze, rankProgress := 4,
    totalLimit := 3000000, balance := 2500000, lastLoanSeq := 2 }

/-- Witness for C10: a settled loan, an admin, and a non-admin with no
overdue loans all pass through the engine unchanged. -/
theorem frame_conditions_witness :
    reconcileLoan 20157 loanC10 = loanC10
    ∧ reconcileUser 20157 [loanC10] adminC10 = adminC10
    ∧ reconcileUser 20157 [loanC10] userC10 = userC10 :=
  ⟨frame_conditions.1 20157 loanC10 (by decide),
   frame_conditions.2.2.1 20157 [loanC10] adminC10 rfl,
   frame_conditions.2.2.2.2 20157 [loanC10] userC10
     (by
       have hmax : maxOverdueDays 20157 [loanC10] userC10 = 0 := by decide
       rw [hmax]
       simp [demoteStep, walk, clampFinish, userC10])⟩

def loanC8 : LoanRecord :=
  { id := "LN-C8", userId := "U-C8", amount := 1000000,
    date := "not-a-date", status := "ĐANG NỢ", fine := 0 }

/-- Claim C8, settled against the code: an active loan whose due-date string
does not parse into day/month/year integers is silently skipped — the
engine raises nothing, leaves the loan unchanged and counts zero
overdue days for it, contrary to the fail-loudly requirement of the
specification. -/
theorem malformed_date_silently_skipped :
    parseDueDate loanC8.date = none
    ∧ isActiveStatus loanC8.status = true
    ∧ reconcileLoan 20157 loanC8 = loanC8
    ∧ loanOverdue 20157 loanC8 = 0 := by
  refine ⟨by decide, by decide, ?_, by decide⟩
  unfold reconcileLoan
  rw [if_pos (by decide)]
  rw [show parseDueDate loanC8.date = none from by decide]

def loanC3 : LoanRecord :=
  { id := "LN-C3", userId := "U-C3", amount := 1000000,
    date := "5/3/2025", status := "ĐANG NỢ", fine := 0 }

def loanC3a : LoanRecord := { loanC3 with fine := 5000 }

def userC3 : User :=
  { id := "U-C3", phone := "0900000003", fullName := "Khach C3",
    isAdmin := false, rank := Rank.gold, rankProgress := 2,
    totalLimit := 5000000, balance := 4800000, lastLoanSeq := 1 }

def userC3a : User :=
  { userC3 with
    rank := Rank.silver
    rankProgress := 8
    totalLimit := 4000000
    balance := 4000000 }

def userC3b : User :=
  { userC3 with
    rank := Rank.silver
    rankProgress := 3
    totalLimit := 4000000
    balance := 4000000 }

/-- Claim C3, settled against the code: with the same `today = 20157` (five
days past the due date of `loanC3`), the first run turns the gold user
`userC3` (progress 2) into silver progress 8, and a second run on the
first run output demotes again to silver progress 3 — the engine is not
idempotent within a day, because the demotion walk restarts from the
already-demoted stored pair. -/
theorem reconcile_second_run_changes_users :
    (reconcile 20157 [loanC3] [userC3]).1 = [loanC3a]
    ∧ (reconcile 20157 [loanC3] [userC3]).2 = [userC3a]
    ∧ (reconcile 20157 [loanC3a] [userC3a]).1 = [loanC3a]
    ∧ (reconcile 20157 [loanC3a] [userC3a]).2 = [userC3b]
    ∧ userC3b ≠ userC3a := by
  have hpar : parseDueDate loanC3.date = some 20152 := by decide
  have h5 : ((20157 : ℤ) - 20152).toNat = 5 := by decide
  have hF : computeFine loanC3.amount ((20157 : ℤ) - 20152).toNat = 5000 := by
    rw [h5]
    norm_num [computeFine, loanC3, min_def]
  have hL1 : reconcileLoan 20157 loanC3 = loanC3a := by
    unfold reconcileLoan
    rw [if_pos (by decide), hpar]
    dsimp only
    rw [if_pos (by decide), hF]
    rw [if_pos (by norm_num [loanC3])]
    rfl
  have hL2 : reconcileLoan 20157 loanC3a = loanC3a := by
    unfold reconcileLoan
    rw [if_pos (by decide)]
    rw [show parseDueDate loanC3a.date = some 20152 from by decide]
    dsimp only
    rw [if_pos (by decide)]
    rw [show computeFine loanC3a.amount ((20157 : ℤ) - 20152).toNat = 5000 from hF]
    rw [if_neg (by norm_num [loanC3a, loanC3])]
  have hdemA : demoteStep Rank.gold 2 5 = (Rank.silver, 8) := by
    simp [demoteStep, walk, clampFinish, rankDown, rankIdx, rankOrder]
  have hdemB : demoteStep Rank.silver 8 5 = (Rank.silver, 3) := by
    simp [demoteStep, walk, clampFinish, rankDown, rankIdx, rankOrder]
  have hmax1 : maxOverdueDays 20157 [loanC3a] userC3 = 5 := by decide
  have hmax2 : maxOverdueDays 20157 [loanC3a] userC3a = 5 := by decide
  have hU1 : reconcileUser 20157 [loanC3a] userC3 = userC3a := by
    unfold reconcileUser
    rw [if_neg (by decide)]
    dsimp only
    rw [hmax1, if_pos (by decide)]
    rw [show demoteStep userC3.rank userC3.rankProgress 5 = (Rank.silver, 8) from hdemA]
    rw [if_pos (by decide)]
    show _ = userC3a
    norm_num [userC3, userC3a, rankLimit, min_def, User.mk.injEq]
  have hU2 : reconcileUser 20157 [loanC3a] userC3a = userC3b := by
    unfold reconcileUser
    rw [if_neg (by decide)]
    dsimp only
    rw [hmax2, if_pos (by decide)]
    rw [show demoteStep userC3a.rank userC3a.rankProgress 5 = (Rank.silver, 3) from hdemB]
    rw [if_pos (by decide)]
    show _ = userC3b
    norm_num [userC3, userC3a, userC3b, rankLimit, min_def, User.mk.injEq]
  refine ⟨?_, ?_, ?_, ?_, by decide⟩
  · show [reconcileLoan 20157 loanC3] = [loanC3a]
    rw [hL1]
  · show [reconcileUser 20157 ([loanC3].map (reconcileLoan 20157)) userC3] = [userC3a]
    simp only [List.map_cons, List.map_nil, hL1]
    rw [hU1]
  · show [reconcileLoan 20157 loanC3a] = [loanC3a]
    rw [hL2]
  · show [reconcileUser 20157 ([loanC3a].map (reconcileLoan 20157)) userC3a] = [userC3b]
    simp only [List.map_cons, List.map_nil, hL2]
    rw [hU2]
